import Mathlib

/-!
# Named-parameter applicator (proof-of-concept operators)

A shallow embedding of `mock_test.cpp` and of the three operator headers
`Named_parameter_verbose.hpp`, `Named_parameter_vertex_point_map.hpp`,
`Named_parameter_geom_traits.hpp`.

* `std::string` is `String`, `int` is `Int`, `bool` is `Bool`.
* `MockDict = std::map<std::string, int>` is the list of its entries in the
  order in which `for (const auto &item : params)` visits them.  The map
  contract (keys pairwise distinct) is stated as a hypothesis where a claim
  depends on it.
* The variadic operator pack `op, ops...` is a list of operator values; each
  operator is its `m_name` together with its `operator()`.
* The wrapper is any function of the configuration; its result type is
  arbitrary, so a wrapper that prints or keeps state is covered by taking a
  result type that records it.
* The text sent to `std::cout` is not part of the pure definitions; the
  instrumented run `named_parameter_applicator_events` records every
  statement of the applicator as an event.

The next part embeds `simple_geometry.hpp` and `process_mesh_py` of
`named_param_binding.cpp`.  The nanobind casts are parameters of the model.

The definitions with the suffix `_ref` repeat the mock methods, the operators
and the applicator with their reference arguments made explicit (state
passing), so that what a call leaves in the objects of the caller can be
stated.

The function `simple_function` of `test_external_docstrings.cpp` computes in
`int`, taken as a 32-bit wrapping (twos-complement) integer.
-/

namespace CGAL.parameters

/-- The mock parameter object of `mock_test.cpp`: one field, the chain text. -/
structure MockParameters where
  chain : String
deriving DecidableEq, Repr

/-- Constructor `MockParameters() : chain("default_values()")`, returned by
`default_values()`. -/
def default_values : MockParameters :=
  { chain := "default_values()" }

/-- Method `MockParameters::verbose(bool v)`: copy of the receiver with one
segment appended. -/
def MockParameters.verbose (self : MockParameters) (v : Bool) : MockParameters :=
  { chain := self.chain ++ (".verbose(" ++ (if v then "true" else "false") ++ ")") }

/-- Method `MockParameters::vertex_point_map(int vpm)`. -/
def MockParameters.vertex_point_map (self : MockParameters) (vpm : Int) : MockParameters :=
  { chain := self.chain ++ (".vertex_point_map(vpm_" ++ toString vpm ++ ")") }

/-- Method `MockParameters::geom_traits(int kernel)`. -/
def MockParameters.geom_traits (self : MockParameters) (kernel : Int) : MockParameters :=
  { chain := self.chain ++ (".geom_traits(kernel_" ++ toString kernel ++ ")") }

end CGAL.parameters

namespace CGALPY

open CGAL.parameters

/-- Type `MockDict = std::map<std::string, int>`, as its entries in iteration
order. -/
abbrev MockDict := List (String × Int)

/-- An operator of the pack: the member `m_name` and the call operator
`operator()(np, value)`. -/
structure NamedParameterOp where
  m_name : String
  call : MockParameters → Int → MockParameters

/-- Operator `Named_parameter_verbose`: `static_cast<bool>(value)` then
`np.verbose(verbose_val)`. -/
def Named_parameter_verbose : NamedParameterOp :=
  { m_name := "verbose"
    call := fun np value => np.verbose (decide (value ≠ 0)) }

/-- Operator `Named_parameter_vertex_point_map`: `np.vertex_point_map(value)`. -/
def Named_parameter_vertex_point_map : NamedParameterOp :=
  { m_name := "vertex_point_map"
    call := fun np value => np.vertex_point_map value }

/-- Operator `Named_parameter_geom_traits`: `np.geom_traits(value)`. -/
def Named_parameter_geom_traits : NamedParameterOp :=
  { m_name := "geom_traits"
    call := fun np value => np.geom_traits value }

/-- The loop `for (const auto &item : params)` of the recursive case: the
first item whose key equals `op.m_name` yields `np_new = op(np, item.second)`
and leaves the loop; `none` when the loop runs to its end without a match. -/
def scan_params (op : NamedParameterOp) (np : MockParameters) :
    MockDict → Option MockParameters
  | [] => none
  | item :: rest =>
    if item.1 = op.m_name then some (op.call np item.2)
    else scan_params op np rest

/-- Function `named_parameter_applicator(wrapper, np, params, ops...)`: the
base case (empty pack) returns `wrapper(np)`; the recursive case scans the
dictionary for `op.m_name` and recurses on the remaining operators with the
updated or the unchanged configuration. -/
def named_parameter_applicator {ρ : Type} (wrapper : MockParameters → ρ) :
    MockParameters → MockDict → List NamedParameterOp → ρ
  | np, _, [] => wrapper np
  | np, params, op :: ops =>
    match scan_params op np params with
    | some np_new => named_parameter_applicator wrapper np_new params ops
    | none => named_parameter_applicator wrapper np params ops

/-- Spec-side dictionary access `params[key]`, defined when `key` is a key of
`params`: the dictionary read as a partial map from keys to values. -/
def dict_at (params : MockDict) (key : String) : Option Int :=
  params.lookup key

/-- Spec-side step of the fold: `step c op = op(c, params[op.m_name])` when
`op.m_name` is a key of `params`, and `step c op = c` otherwise. -/
def step (params : MockDict) (c : MockParameters) (op : NamedParameterOp) :
    MockParameters :=
  match dict_at params op.m_name with
  | some v => op.call c v
  | none => c

/-- What a run of the applicator does, in program order: one event per
`std::cout` statement of `named_parameter_applicator` and one per call it
makes (to an operator, to the wrapper). -/
inductive Event where
  | base_case_reached
  | wrapper_call (np : MockParameters)
  | trying_operator (m_name : String)
  | checking_key (key : String) (m_name : String)
  | key_matched
  | operator_call (m_name : String) (value : Int)
  | recursing
  | key_differs
  | no_match (m_name : String)
deriving DecidableEq, Repr

/-- Test for the event of the statement `return wrapper(np)`. -/
def Event.is_wrapper_call : Event → Bool
  | .wrapper_call _ => true
  | _ => false

/-- Test for the event that opens the recursive case
(`"Trying operator: " << op.m_name`). -/
def Event.is_trying_operator : Event → Bool
  | .trying_operator _ => true
  | _ => false

/-- The dictionary loop of the recursive case with its events: each visited
item is reported, a matching item calls the operator and ends the loop. -/
def scan_params_events (op : NamedParameterOp) (np : MockParameters) :
    MockDict → List Event × Option MockParameters
  | [] => ([], none)
  | item :: rest =>
    if item.1 = op.m_name then
      ([Event.checking_key item.1 op.m_name, Event.key_matched,
        Event.operator_call op.m_name item.2, Event.recursing],
       some (op.call np item.2))
    else
      let r := scan_params_events op np rest
      (Event.checking_key item.1 op.m_name :: Event.key_differs :: r.1, r.2)

/-- Instrumented `named_parameter_applicator`: the same two overloads, each
statement recorded as an event. -/
def named_parameter_applicator_events :
    MockParameters → MockDict → List NamedParameterOp → List Event
  | np, _, [] => [Event.base_case_reached, Event.wrapper_call np]
  | np, params, op :: ops =>
    match scan_params_events op np params with
    | (evs, some np_new) =>
      Event.trying_operator op.m_name ::
        (evs ++ named_parameter_applicator_events np_new params ops)
    | (evs, none) =>
      Event.trying_operator op.m_name ::
        (evs ++ Event.no_match op.m_name ::
          named_parameter_applicator_events np params ops)

end CGALPY

namespace SimpleGeometry

namespace parameters

/-- Struct `Default_named_parameters` of `simple_geometry.hpp` (no members). -/
structure Default_named_parameters where
deriving DecidableEq, Repr

/-- Struct `With_tolerance<T>::With_max_iterations<U>`. -/
structure With_max_iterations (T U : Type) where
  tolerance_value : T
  max_iter_value : U
deriving DecidableEq, Repr

/-- Struct `With_tolerance<T>`. -/
structure With_tolerance (T : Type) where
  tolerance_value : T
deriving DecidableEq, Repr

/-- Function `parameters::default_values()`. -/
def default_values : Default_named_parameters := {}

/-- Method `With_tolerance<T>::max_iterations(U value)`. -/
def With_tolerance.max_iterations {T U : Type} (self : With_tolerance T) (value : U) :
    With_max_iterations T U :=
  { tolerance_value := self.tolerance_value, max_iter_value := value }

/-- Function `parameters::tolerance(T value)`. -/
def tolerance {T : Type} (value : T) : With_tolerance T :=
  { tolerance_value := value }

end parameters

/-- Function template `process_mesh(mesh_name, vertex_count, np)`. -/
def process_mesh {NamedParameters : Type} (mesh_name : String) (vertex_count : Int)
    (_np : NamedParameters) : String :=
  "Processed mesh '" ++ mesh_name ++ "' with " ++ toString vertex_count ++ " vertices"

end SimpleGeometry

namespace Binding

open SimpleGeometry

/-- The three instantiations of `process_mesh` that `process_mesh_py` can
call, told apart by the named-parameter object handed over. -/
inductive PassedParameters (Double : Type) where
  | np (p : parameters.Default_named_parameters)
  | np_tol (p : parameters.With_tolerance Double)
  | np_full (p : parameters.With_max_iterations Double Int)
deriving DecidableEq, Repr

/-- The `max_iterations` value a named-parameter object carries, if any. -/
def PassedParameters.max_iterations {Double : Type} :
    PassedParameters Double → Option Int
  | .np _ => none
  | .np_tol _ => none
  | .np_full p => some p.max_iter_value

/-- The `tolerance` value a named-parameter object carries, if any. -/
def PassedParameters.tolerance {Double : Type} :
    PassedParameters Double → Option Double
  | .np _ => none
  | .np_tol p => some p.tolerance_value
  | .np_full p => some p.tolerance_value

/-- First half of `process_mesh_py`: the branch taken on the dictionary and
the named-parameter object built in it.  The dictionary `nb::dict` is the list
of its string-keyed items (`contains` and `operator[]` are `lookup`); the
nanobind casts `nb::cast<double>` and `nb::cast<int>`, which are not part of
this repository, are parameters and may fail. -/
def process_mesh_py_parameters {PyObject Double CastError : Type}
    (cast_double : PyObject → Except CastError Double)
    (cast_int : PyObject → Except CastError Int)
    (params : List (String × PyObject)) :
    Except CastError (PassedParameters Double) :=
  match params.lookup "tolerance", params.lookup "max_iterations" with
  | some t, some m => do
    let tol ← cast_double t
    let max_iter ← cast_int m
    pure (.np_full ((parameters.tolerance tol).max_iterations max_iter))
  | some t, none => do
    let tol ← cast_double t
    pure (.np_tol (parameters.tolerance tol))
  | none, _ => pure (.np parameters.default_values)

/-- Second half of `process_mesh_py`: the call of `SG::process_mesh` at the
object built. -/
def call_process_mesh {Double : Type} (mesh_name : String) (vertex_count : Int) :
    PassedParameters Double → String
  | .np p => process_mesh mesh_name vertex_count p
  | .np_tol p => process_mesh mesh_name vertex_count p
  | .np_full p => process_mesh mesh_name vertex_count p

/-- Function `process_mesh_py(mesh_name, vertex_count, params)`. -/
def process_mesh_py {PyObject Double CastError : Type}
    (cast_double : PyObject → Except CastError Double)
    (cast_int : PyObject → Except CastError Int)
    (mesh_name : String) (vertex_count : Int) (params : List (String × PyObject)) :
    Except CastError String :=
  (process_mesh_py_parameters cast_double cast_int params).map
    (call_process_mesh mesh_name vertex_count)

end Binding

namespace CGALPY

open CGAL.parameters

/-- Test for the event of the statement `auto np_new = op(np, item.second)`:
one apply step. -/
def Event.is_operator_call : Event → Bool
  | .operator_call _ _ => true
  | _ => false

end CGALPY

namespace CGAL.parameters

/-- Method `MockParameters::verbose(bool v)` with the receiver made explicit:
the pair of the receiver after the call and the returned value.  The body
copies `*this` into `result`, appends to `result.chain` and returns `result`;
no statement assigns to `*this`. -/
def MockParameters.verbose_ref (self : MockParameters) (v : Bool) :
    MockParameters × MockParameters :=
  let result := self
  let result : MockParameters :=
    { chain := result.chain ++ (".verbose(" ++ (if v then "true" else "false") ++ ")") }
  (self, result)

/-- Method `MockParameters::vertex_point_map(int vpm)` with the receiver made
explicit. -/
def MockParameters.vertex_point_map_ref (self : MockParameters) (vpm : Int) :
    MockParameters × MockParameters :=
  let result := self
  let result : MockParameters :=
    { chain := result.chain ++ (".vertex_point_map(vpm_" ++ toString vpm ++ ")") }
  (self, result)

/-- Method `MockParameters::geom_traits(int kernel)` with the receiver made
explicit. -/
def MockParameters.geom_traits_ref (self : MockParameters) (kernel : Int) :
    MockParameters × MockParameters :=
  let result := self
  let result : MockParameters :=
    { chain := result.chain ++ (".geom_traits(kernel_" ++ toString kernel ++ ")") }
  (self, result)

end CGAL.parameters

namespace CGALPY

open CGAL.parameters

/-- An operator whose call operator receives `np` by non-const reference: it
yields the pair of `np` after the call and the returned configuration.  The
value is a `const int &` into the dictionary and cannot be assigned. -/
structure NamedParameterOpRef where
  m_name : String
  call : MockParameters → Int → MockParameters × MockParameters

/-- The pure operator read off an operator with references: its returned
configuration. -/
def NamedParameterOpRef.pure (op : NamedParameterOpRef) : NamedParameterOp :=
  { m_name := op.m_name
    call := fun np value => (op.call np value).2 }

/-- Operator `Named_parameter_verbose` with references. -/
def Named_parameter_verbose_ref : NamedParameterOpRef :=
  { m_name := "verbose"
    call := fun np value => np.verbose_ref (decide (value ≠ 0)) }

/-- Operator `Named_parameter_vertex_point_map` with references. -/
def Named_parameter_vertex_point_map_ref : NamedParameterOpRef :=
  { m_name := "vertex_point_map"
    call := fun np value => np.vertex_point_map_ref value }

/-- Operator `Named_parameter_geom_traits` with references. -/
def Named_parameter_geom_traits_ref : NamedParameterOpRef :=
  { m_name := "geom_traits"
    call := fun np value => np.geom_traits_ref value }

/-- The two objects of the caller after a call of the applicator, `np` (passed by
non-const reference) and `params` (passed by const reference), and the value
returned. -/
structure AfterCall (ρ : Type) where
  np : MockParameters
  params : MockDict
  result : ρ

/-- The dictionary loop with references: at the first matching item the pair
of `np` after the operator call and `np_new`. -/
def scan_params_ref (op : NamedParameterOpRef) (np : MockParameters) :
    MockDict → Option (MockParameters × MockParameters)
  | [] => none
  | item :: rest =>
    if item.1 = op.m_name then some (op.call np item.2)
    else scan_params_ref op np rest

/-- Function `named_parameter_applicator` with its reference arguments made
explicit.  The wrapper receives `np` by reference and yields `np` after its
call with its result.  After a match the recursion runs on the local object
`np_new`, which ends with the frame; without a match it runs on the `np` of
the caller. -/
def named_parameter_applicator_ref {ρ : Type}
    (wrapper : MockParameters → MockParameters × ρ) :
    MockParameters → MockDict → List NamedParameterOpRef → AfterCall ρ
  | np, params, [] =>
    { np := (wrapper np).1, params := params, result := (wrapper np).2 }
  | np, params, op :: ops =>
    match scan_params_ref op np params with
    | some (np_after, np_new) =>
      let inner := named_parameter_applicator_ref wrapper np_new params ops
      { np := np_after, params := inner.params, result := inner.result }
    | none => named_parameter_applicator_ref wrapper np params ops

end CGALPY

/-- The call operator of `MockWrapper`, which receives `np` by reference,
returns nothing and prints the function name and, through the const method
`print_final`, the chain: the pair of `np` after the call and the printed
text. -/
def MockWrapper (function_name : String) (np : CGAL.parameters.MockParameters) :
    CGAL.parameters.MockParameters × List String :=
  (np, ["\n→ MockWrapper called for function: " ++ function_name ++ "\n",
        "\n✓ Final parameter chain:\n  " ++ np.chain ++ "\n"])

/-- The value of a C++ `int` expression whose mathematical value is `z`, as a
32-bit wrapping (twos-complement) machine integer. -/
def wrap_int32 (z : Int) : Int :=
  (z + 2147483648) % 4294967296 - 2147483648

/-- Range of the C++ type `int`. -/
def is_int32 (z : Int) : Prop :=
  -2147483648 ≤ z ∧ z ≤ 2147483647

/-- Function `simple_function(int x)` of `test_external_docstrings.cpp`:
`return x * 2;`, the product taken in `int`. -/
def simple_function (x : Int) : Int :=
  wrap_int32 (x * 2)

namespace CGALPY

open CGAL.parameters

/-- Spec-side list of apply steps: the operators of the list whose `m_name` is
a dictionary key, each with the value of its key, in list order and counted
with multiplicity. -/
def apply_steps (params : MockDict) (ops : List NamedParameterOp) :
    List (NamedParameterOp × Int) :=
  ops.filterMap (fun op => (dict_at params op.m_name).map (fun v => (op, v)))

/-- Spec-side effect of a list of apply steps on a configuration: each
operator applied once to the configuration left by the steps before it. -/
def run_steps (np : MockParameters) (steps : List (NamedParameterOp × Int)) :
    MockParameters :=
  steps.foldl (fun c s => s.1.call c s.2) np

theorem scan_params_eq_lookup (op : NamedParameterOp) (np : MockParameters)
    (params : MockDict) :
    scan_params op np params = (params.lookup op.m_name).map (op.call np) := by
  induction params with
  | nil => rfl
  | cons item rest ih =>
    obtain ⟨k, v⟩ := item
    by_cases h : k = op.m_name
    · subst h
      simp [scan_params, List.lookup]
    · have h2 : (op.m_name == k) = false := by
        simp only [beq_eq_false_iff_ne, ne_eq]
        exact fun e => h e.symm
      simp [scan_params, List.lookup, h, h2, ih]

theorem dict_at_eq_some_iff (params : MockDict) (hu : (params.map Prod.fst).Nodup)
    (k : String) (v : Int) : dict_at params k = some v ↔ (k, v) ∈ params := by
  unfold dict_at
  induction params with
  | nil => simp
  | cons item rest ih =>
    obtain ⟨k1, v1⟩ := item
    simp only [List.map_cons, List.nodup_cons, List.mem_map, not_exists, not_and] at hu
    by_cases h : k = k1
    · subst h
      have hn : (k, v) ∉ rest := fun hm => hu.1 (k, v) hm rfl
      simp [List.lookup, hn, eq_comm]
    · have h2 : (k == k1) = false := by simpa using h
      simp [List.lookup, h2, h, ih hu.2]

theorem dict_at_eq_none_iff (params : MockDict) (k : String) :
    dict_at params k = none ↔ k ∉ params.map Prod.fst := by
  unfold dict_at
  induction params with
  | nil => simp
  | cons item rest ih =>
    obtain ⟨k1, v1⟩ := item
    by_cases h : k = k1
    · subst h
      simp [List.lookup]
    · have h2 : (k == k1) = false := by simpa using h
      simp only [List.lookup, h2, ih]
      simp [h]

theorem scan_params_of_mem (op : NamedParameterOp) (np : MockParameters)
    (params : MockDict) (hu : (params.map Prod.fst).Nodup) (v : Int)
    (hv : (op.m_name, v) ∈ params) :
    scan_params op np params = some (op.call np v) := by
  rw [scan_params_eq_lookup]
  have := (dict_at_eq_some_iff params hu op.m_name v).2 hv
  unfold dict_at at this
  rw [this]
  rfl

theorem scan_params_of_not_key (op : NamedParameterOp) (np : MockParameters)
    (params : MockDict) (hk : op.m_name ∉ params.map Prod.fst) :
    scan_params op np params = none := by
  rw [scan_params_eq_lookup]
  have := (dict_at_eq_none_iff params op.m_name).2 hk
  unfold dict_at at this
  rw [this]
  rfl

theorem applicator_eq_wrapper_foldl {ρ : Type}
    (wrapper : MockParameters → ρ) (np : MockParameters) (params : MockDict)
    (ops : List NamedParameterOp) :
    named_parameter_applicator wrapper np params ops
      = wrapper (List.foldl (step params) np ops) := by
  induction ops generalizing np with
  | nil => rfl
  | cons op ops ih =>
    simp only [named_parameter_applicator, List.foldl_cons, step, dict_at,
      scan_params_eq_lookup]
    cases List.lookup op.m_name params with
    | none => exact ih np
    | some v => exact ih (op.call np v)

/-- C1: the applicator is a left fold over the operator list; the wrapper
receives `foldl step np ops`, where `step c op` is `op(c, params[op.m_name])`
when `op.m_name` is a key of `params` and `c` otherwise. -/
theorem named_parameter_applicator_eq_foldl {ρ : Type} (wrapper : MockParameters → ρ)
    (np : MockParameters) (params : MockDict) (ops : List NamedParameterOp) :
    named_parameter_applicator wrapper np params ops
      = wrapper (List.foldl (step params) np ops) :=
  applicator_eq_wrapper_foldl wrapper np params ops

/-- C2: with an empty operator list the wrapper receives the base
configuration `np` itself (same chain), whatever the dictionary holds. -/
theorem named_parameter_applicator_nil {ρ : Type} (wrapper : MockParameters → ρ)
    (np : MockParameters) (params : MockDict) :
    named_parameter_applicator wrapper np params [] = wrapper np
      ∧ (named_parameter_applicator id np params []).chain = np.chain :=
  ⟨rfl, rfl⟩

/-- C3: an operator whose `m_name` is not a key of the dictionary leaves the
configuration unchanged: the run continues with the remaining operators on
the same `np`. -/
theorem named_parameter_applicator_absent_key {ρ : Type} (wrapper : MockParameters → ρ)
    (np : MockParameters) (params : MockDict) (op : NamedParameterOp)
    (ops : List NamedParameterOp) (hk : op.m_name ∉ params.map Prod.fst) :
    named_parameter_applicator wrapper np params (op :: ops)
      = named_parameter_applicator wrapper np params ops := by
  simp only [named_parameter_applicator, scan_params_of_not_key op np params hk]

theorem named_parameter_applicator_absent_key_witness :
    Named_parameter_verbose.m_name
        ∉ ([("unknown", 1), ("vertex_point_map", 42)] : MockDict).map Prod.fst
      ∧ named_parameter_applicator id default_values
          [("unknown", 1), ("vertex_point_map", 42)]
          (Named_parameter_verbose :: [Named_parameter_vertex_point_map])
        = named_parameter_applicator id default_values
          [("unknown", 1), ("vertex_point_map", 42)]
          [Named_parameter_vertex_point_map] :=
  ⟨by decide,
   named_parameter_applicator_absent_key id default_values
     [("unknown", 1), ("vertex_point_map", 42)] Named_parameter_verbose
     [Named_parameter_vertex_point_map] (by decide)⟩

/-- C4: when the dictionary (unique keys) maps `op.m_name` to `v`, the run
continues with the remaining operators on `op(np, v)`; with no remaining
operator the wrapper receives exactly `op(np, v)`, which for each of the three
mock operators is `np` with that operator's single segment appended. -/
theorem named_parameter_applicator_present_key {ρ : Type}
    (wrapper : MockParameters → ρ) (np : MockParameters) (params : MockDict)
    (op : NamedParameterOp) (ops : List NamedParameterOp) (v : Int)
    (hu : (params.map Prod.fst).Nodup) (hv : (op.m_name, v) ∈ params) :
    named_parameter_applicator wrapper np params (op :: ops)
        = named_parameter_applicator wrapper (op.call np v) params ops
      ∧ named_parameter_applicator id np params [op] = op.call np v
      ∧ (op = Named_parameter_verbose →
          (named_parameter_applicator id np params [op]).chain
            = np.chain ++ (".verbose(" ++ (if v ≠ 0 then "true" else "false") ++ ")"))
      ∧ (op = Named_parameter_vertex_point_map →
          (named_parameter_applicator id np params [op]).chain
            = np.chain ++ (".vertex_point_map(vpm_" ++ toString v ++ ")"))
      ∧ (op = Named_parameter_geom_traits →
          (named_parameter_applicator id np params [op]).chain
            = np.chain ++ (".geom_traits(kernel_" ++ toString v ++ ")")) := by
  have hs := scan_params_of_mem op np params hu v hv
  have h1 : named_parameter_applicator id np params [op] = op.call np v := by
    simp only [named_parameter_applicator, hs, id]
  refine ⟨?_, h1, ?_, ?_, ?_⟩
  · simp only [named_parameter_applicator, hs]
  · intro ho
    rw [h1, ho]
    by_cases hz : v = 0 <;>
      simp [Named_parameter_verbose, MockParameters.verbose, hz]
  · intro ho
    rw [h1, ho]
    rfl
  · intro ho
    rw [h1, ho]
    rfl

theorem named_parameter_applicator_present_key_witness :
    (([("verbose", 1)] : MockDict).map Prod.fst).Nodup
      ∧ (Named_parameter_verbose.m_name, (1 : Int)) ∈ ([("verbose", 1)] : MockDict)
      ∧ named_parameter_applicator id default_values [("verbose", 1)]
          [Named_parameter_verbose]
        = Named_parameter_verbose.call default_values 1
      ∧ (named_parameter_applicator id default_values [("verbose", 1)]
          [Named_parameter_verbose]).chain
        = default_values.chain ++ (".verbose(" ++ (if (1 : Int) ≠ 0 then "true" else "false") ++ ")") :=
  ⟨by decide, by decide,
   (named_parameter_applicator_present_key id default_values [("verbose", 1)]
     Named_parameter_verbose [] 1 (by decide) (by decide)).2.1,
   (named_parameter_applicator_present_key id default_values [("verbose", 1)]
     Named_parameter_verbose [] 1 (by decide) (by decide)).2.2.1 rfl⟩

/-- C5: for two operators `A`, `B` and a dictionary (unique keys) holding both
keys with values `a`, `b`, the wrapper receives `B(A(np, a), b)`, wherever the
two keys stand in the iteration order; the three-operator test yields the
chain of `vertex_point_map`, `geom_traits`, `verbose` in that order although
the map visits `geom_traits` first. -/
theorem named_parameter_applicator_pair_order {ρ : Type}
    (wrapper : MockParameters → ρ) (np : MockParameters) (params : MockDict)
    (A B : NamedParameterOp) (a b : Int)
    (hu : (params.map Prod.fst).Nodup)
    (ha : (A.m_name, a) ∈ params) (hb : (B.m_name, b) ∈ params) :
    named_parameter_applicator wrapper np params [A, B]
        = wrapper (B.call (A.call np a) b)
      ∧ (named_parameter_applicator id default_values
          [("geom_traits", 456), ("verbose", 1), ("vertex_point_map", 123)]
          [Named_parameter_vertex_point_map, Named_parameter_geom_traits,
            Named_parameter_verbose]).chain
        = "default_values().vertex_point_map(vpm_123).geom_traits(kernel_456).verbose(true)" := by
  refine ⟨?_, by decide⟩
  simp only [named_parameter_applicator, scan_params_of_mem A np params hu a ha,
    scan_params_of_mem B (A.call np a) params hu b hb]

theorem named_parameter_applicator_pair_order_witness :
    (([("geom_traits", 99), ("vertex_point_map", 42)] : MockDict).map Prod.fst).Nodup
      ∧ (Named_parameter_vertex_point_map.m_name, (42 : Int))
          ∈ ([("geom_traits", 99), ("vertex_point_map", 42)] : MockDict)
      ∧ (Named_parameter_geom_traits.m_name, (99 : Int))
          ∈ ([("geom_traits", 99), ("vertex_point_map", 42)] : MockDict)
      ∧ named_parameter_applicator id default_values
          [("geom_traits", 99), ("vertex_point_map", 42)]
          [Named_parameter_vertex_point_map, Named_parameter_geom_traits]
        = id (Named_parameter_geom_traits.call
            (Named_parameter_vertex_point_map.call default_values 42) 99) :=
  ⟨by decide, by decide, by decide,
   (named_parameter_applicator_pair_order id default_values
     [("geom_traits", 99), ("vertex_point_map", 42)]
     Named_parameter_vertex_point_map Named_parameter_geom_traits 42 99
     (by decide) (by decide) (by decide)).1⟩

theorem dict_at_perm (params1 params2 : MockDict) (hp : params1.Perm params2)
    (hu : (params1.map Prod.fst).Nodup) (k : String) :
    dict_at params1 k = dict_at params2 k := by
  have hu2 : (params2.map Prod.fst).Nodup := (hp.map Prod.fst).nodup_iff.1 hu
  cases h2 : dict_at params2 k with
  | none =>
    rw [dict_at_eq_none_iff] at h2 ⊢
    exact fun hm => h2 ((hp.map Prod.fst).mem_iff.1 hm)
  | some v =>
    rw [dict_at_eq_some_iff params2 hu2] at h2
    rw [dict_at_eq_some_iff params1 hu]
    exact hp.mem_iff.2 h2

/-- C6: the final configuration does not depend on the order in which the
dictionary entries are visited: two entry sequences that are permutations of
each other, with pairwise distinct keys, give the same result. -/
theorem named_parameter_applicator_perm {ρ : Type} (wrapper : MockParameters → ρ)
    (np : MockParameters) (params1 params2 : MockDict) (ops : List NamedParameterOp)
    (hp : params1.Perm params2) (hu : (params1.map Prod.fst).Nodup) :
    named_parameter_applicator wrapper np params1 ops
      = named_parameter_applicator wrapper np params2 ops := by
  have hstep : step params1 = step params2 := by
    funext c op
    simp only [step, dict_at_perm params1 params2 hp hu]
  rw [applicator_eq_wrapper_foldl, applicator_eq_wrapper_foldl, hstep]

theorem named_parameter_applicator_perm_witness :
    ([("vertex_point_map", 123), ("geom_traits", 456), ("verbose", 1)] : MockDict).Perm
        [("geom_traits", 456), ("verbose", 1), ("vertex_point_map", 123)]
      ∧ (([("vertex_point_map", 123), ("geom_traits", 456), ("verbose", 1)] :
          MockDict).map Prod.fst).Nodup
      ∧ named_parameter_applicator id default_values
          [("vertex_point_map", 123), ("geom_traits", 456), ("verbose", 1)]
          [Named_parameter_vertex_point_map, Named_parameter_geom_traits,
            Named_parameter_verbose]
        = named_parameter_applicator id default_values
          [("geom_traits", 456), ("verbose", 1), ("vertex_point_map", 123)]
          [Named_parameter_vertex_point_map, Named_parameter_geom_traits,
            Named_parameter_verbose] :=
  ⟨by decide, by decide,
   named_parameter_applicator_perm id default_values
     [("vertex_point_map", 123), ("geom_traits", 456), ("verbose", 1)]
     [("geom_traits", 456), ("verbose", 1), ("vertex_point_map", 123)]
     [Named_parameter_vertex_point_map, Named_parameter_geom_traits,
       Named_parameter_verbose] (by decide) (by decide)⟩

theorem scan_params_insert_other (op : NamedParameterOp) (np : MockParameters)
    (before after : MockDict) (k : String) (v : Int) (hk : op.m_name ≠ k) :
    scan_params op np (before ++ (k, v) :: after) = scan_params op np (before ++ after) := by
  induction before with
  | nil =>
    have hk2 : ¬ k = op.m_name := fun e => hk e.symm
    simp [scan_params, hk2]
  | cons item rest ih =>
    by_cases h : item.1 = op.m_name
    · simp [scan_params, h]
    · simpa [scan_params, h] using ih

/-- C7: a dictionary key that is no operator's `m_name` has no effect and
raises no error: adding an entry `(k, v)` anywhere in the dictionary leaves
the result of the applicator unchanged, for every value `v`. -/
theorem named_parameter_applicator_unknown_key {ρ : Type}
    (wrapper : MockParameters → ρ) (np : MockParameters) (before after : MockDict)
    (ops : List NamedParameterOp) (k : String) (v : Int)
    (hk : ∀ op ∈ ops, op.m_name ≠ k) :
    named_parameter_applicator wrapper np (before ++ (k, v) :: after) ops
      = named_parameter_applicator wrapper np (before ++ after) ops := by
  induction ops generalizing np with
  | nil => rfl
  | cons op ops ih =>
    have h1 : op.m_name ≠ k := hk op (List.mem_cons_self op ops)
    have h2 : ∀ o ∈ ops, o.m_name ≠ k := fun o ho => hk o (List.mem_cons_of_mem op ho)
    simp only [named_parameter_applicator, scan_params_insert_other op np before after k v h1]
    cases scan_params op np (before ++ after) with
    | none => exact ih np h2
    | some np_new => exact ih np_new h2

theorem named_parameter_applicator_unknown_key_witness :
    (∀ op ∈ [Named_parameter_vertex_point_map, Named_parameter_verbose],
        op.m_name ≠ "unknown_param")
      ∧ named_parameter_applicator id default_values
          ([] ++ ("unknown_param", 999) :: [("verbose", 1), ("vertex_point_map", 111)])
          [Named_parameter_vertex_point_map, Named_parameter_verbose]
        = named_parameter_applicator id default_values
          ([] ++ [("verbose", 1), ("vertex_point_map", 111)])
          [Named_parameter_vertex_point_map, Named_parameter_verbose] :=
  ⟨by
     intro op hop
     simp only [List.mem_cons, List.mem_singleton, List.not_mem_nil, or_false] at hop
     rcases hop with rfl | rfl <;> decide,
   named_parameter_applicator_unknown_key id default_values []
     [("verbose", 1), ("vertex_point_map", 111)]
     [Named_parameter_vertex_point_map, Named_parameter_verbose] "unknown_param" 999
     (by
       intro op hop
       simp only [List.mem_cons, List.mem_singleton, List.not_mem_nil, or_false] at hop
       rcases hop with rfl | rfl <;> decide)⟩

/-- C8: operators `[verbose, vertex_point_map]` on `default_values()` with
the dictionary `{"vertex_point_map": 42, "unknown": 1}` give the chain
`default_values().vertex_point_map(vpm_42)` and nothing else, in the
iteration order of the map and in the order the entries were written. -/
theorem named_parameter_applicator_scenario :
    named_parameter_applicator id default_values
        [("unknown", 1), ("vertex_point_map", 42)]
        [Named_parameter_verbose, Named_parameter_vertex_point_map]
      = { chain := "default_values().vertex_point_map(vpm_42)" }
    ∧ named_parameter_applicator id default_values
        [("vertex_point_map", 42), ("unknown", 1)]
        [Named_parameter_verbose, Named_parameter_vertex_point_map]
      = { chain := "default_values().vertex_point_map(vpm_42)" } := by
  constructor <;> decide

theorem scan_params_events_snd (op : NamedParameterOp) (np : MockParameters)
    (params : MockDict) :
    (scan_params_events op np params).2 = scan_params op np params := by
  induction params with
  | nil => rfl
  | cons item rest ih =>
    by_cases h : item.1 = op.m_name
    · simp [scan_params_events, scan_params, h]
    · simp [scan_params_events, scan_params, h, ih]

theorem scan_params_events_no_wrapper_call (op : NamedParameterOp)
    (np : MockParameters) (params : MockDict) :
    (scan_params_events op np params).1.filter Event.is_wrapper_call = [] := by
  induction params with
  | nil => rfl
  | cons item rest ih =>
    by_cases h : item.1 = op.m_name
    · simp [scan_params_events, h, Event.is_wrapper_call]
    · simp [scan_params_events, h, Event.is_wrapper_call, ih]

theorem scan_params_events_no_trying (op : NamedParameterOp)
    (np : MockParameters) (params : MockDict) :
    (scan_params_events op np params).1.filter Event.is_trying_operator = [] := by
  induction params with
  | nil => rfl
  | cons item rest ih =>
    by_cases h : item.1 = op.m_name
    · simp [scan_params_events, h, Event.is_trying_operator]
    · simp [scan_params_events, h, Event.is_trying_operator, ih]

theorem scan_params_events_length (op : NamedParameterOp)
    (np : MockParameters) (params : MockDict) :
    (scan_params_events op np params).1.length
      ≤ 2 * params.length + (if (scan_params_events op np params).2 = none then 0 else 2) := by
  induction params with
  | nil => simp [scan_params_events]
  | cons item rest ih =>
    by_cases h : item.1 = op.m_name
    · simp only [scan_params_events, h, if_true, List.length_cons, List.length_nil]
      simp
    · simp only [scan_params_events, h, if_false, List.length_cons]
      omega

theorem applicator_events_wrapper_calls (np : MockParameters) (params : MockDict)
    (ops : List NamedParameterOp) :
    (named_parameter_applicator_events np params ops).filter Event.is_wrapper_call
      = [Event.wrapper_call (named_parameter_applicator id np params ops)] := by
  induction ops generalizing np with
  | nil => rfl
  | cons op ops ih =>
    have h2 := scan_params_events_snd op np params
    have h1 := scan_params_events_no_wrapper_call op np params
    rcases hs : scan_params_events op np params with ⟨evs, r⟩
    rw [hs] at h1 h2
    simp only at h1 h2
    cases r with
    | none =>
      simp [named_parameter_applicator_events, named_parameter_applicator, hs,
        ← h2, List.filter_append, h1, Event.is_wrapper_call, ih]
    | some np_new =>
      simp [named_parameter_applicator_events, named_parameter_applicator, hs,
        ← h2, List.filter_append, h1, Event.is_wrapper_call, ih]

theorem applicator_events_trying (np : MockParameters) (params : MockDict)
    (ops : List NamedParameterOp) :
    (named_parameter_applicator_events np params ops).filter Event.is_trying_operator
      = ops.map (fun op => Event.trying_operator op.m_name) := by
  induction ops generalizing np with
  | nil => rfl
  | cons op ops ih =>
    have h1 := scan_params_events_no_trying op np params
    rcases hs : scan_params_events op np params with ⟨evs, r⟩
    rw [hs] at h1
    simp only at h1
    cases r with
    | none =>
      simp [named_parameter_applicator_events, hs, List.filter_append, h1,
        Event.is_trying_operator, ih]
    | some np_new =>
      simp [named_parameter_applicator_events, hs, List.filter_append, h1,
        Event.is_trying_operator, ih]

theorem applicator_events_length (np : MockParameters) (params : MockDict)
    (ops : List NamedParameterOp) :
    (named_parameter_applicator_events np params ops).length
      ≤ 2 + ops.length * (2 * params.length + 3) := by
  induction ops generalizing np with
  | nil => simp [named_parameter_applicator_events]
  | cons op ops ih =>
    have h1 := scan_params_events_length op np params
    rcases hs : scan_params_events op np params with ⟨evs, r⟩
    rw [hs] at h1
    simp only at h1
    have hm : (ops.length + 1) * (2 * params.length + 3)
        = ops.length * (2 * params.length + 3) + (2 * params.length + 3) :=
      Nat.succ_mul _ _
    cases r with
    | none =>
      have := ih np
      simp only [if_true] at h1
      simp only [named_parameter_applicator_events, hs, List.length_cons,
        List.length_append, hm]
      omega
    | some np_new =>
      have := ih np_new
      simp only [reduceCtorEq, if_false] at h1
      simp only [named_parameter_applicator_events, hs, List.length_cons,
        List.length_append, hm]
      omega

theorem applicator_events_last (np : MockParameters) (params : MockDict)
    (ops : List NamedParameterOp) :
    ∃ before, named_parameter_applicator_events np params ops
      = before ++ [Event.wrapper_call (named_parameter_applicator id np params ops)] := by
  induction ops generalizing np with
  | nil => exact ⟨[Event.base_case_reached], rfl⟩
  | cons op ops ih =>
    have h2 := scan_params_events_snd op np params
    rcases hs : scan_params_events op np params with ⟨evs, r⟩
    rw [hs] at h2
    simp only at h2
    cases r with
    | none =>
      obtain ⟨b, hb⟩ := ih np
      refine ⟨Event.trying_operator op.m_name :: (evs ++ Event.no_match op.m_name :: b), ?_⟩
      simp [named_parameter_applicator_events, named_parameter_applicator, hs, ← h2, hb]
    | some np_new =>
      obtain ⟨b, hb⟩ := ih np_new
      refine ⟨Event.trying_operator op.m_name :: (evs ++ b), ?_⟩
      simp [named_parameter_applicator_events, named_parameter_applicator, hs, ← h2, hb]

/-- C9: the applicator is total and its run is finite for every operator list
and every dictionary: the recursive case is entered once per operator, in
list order, the run then ends with the single call of the wrapper (on the
configuration the pure function computes), the number of events is bounded
in the sizes of the two inputs, whether or not dictionary keys stay
unconsumed, and a call on `op :: ops` reduces to a call on `ops`. -/
theorem named_parameter_applicator_terminates {ρ : Type}
    (wrapper : MockParameters → ρ) (np : MockParameters) (params : MockDict)
    (ops : List NamedParameterOp) :
    (named_parameter_applicator_events np params ops).filter Event.is_wrapper_call
        = [Event.wrapper_call (named_parameter_applicator id np params ops)]
      ∧ (named_parameter_applicator_events np params ops).getLast?
        = some (Event.wrapper_call (named_parameter_applicator id np params ops))
      ∧ (named_parameter_applicator_events np params ops).filter Event.is_trying_operator
        = ops.map (fun op => Event.trying_operator op.m_name)
      ∧ (named_parameter_applicator_events np params ops).length
        ≤ 2 + ops.length * (2 * params.length + 3)
      ∧ named_parameter_applicator wrapper np params ops
        = wrapper (named_parameter_applicator id np params ops)
      ∧ (∀ op : NamedParameterOp, ∃ np_next,
          named_parameter_applicator wrapper np params (op :: ops)
            = named_parameter_applicator wrapper np_next params ops) := by
  refine ⟨applicator_events_wrapper_calls np params ops, ?_,
    applicator_events_trying np params ops, applicator_events_length np params ops, ?_, ?_⟩
  · obtain ⟨b, hb⟩ := applicator_events_last np params ops
    rw [hb]
    simp
  · rw [applicator_eq_wrapper_foldl wrapper, applicator_eq_wrapper_foldl id]
    rfl
  · intro op
    cases hs : scan_params op np params with
    | none => exact ⟨np, by simp only [named_parameter_applicator, hs]⟩
    | some np_new => exact ⟨np_new, by simp only [named_parameter_applicator, hs]⟩

end CGALPY

namespace Binding

open SimpleGeometry

theorem process_mesh_py_parameters_both {PyObject Double CastError : Type}
    (cast_double : PyObject → Except CastError Double)
    (cast_int : PyObject → Except CastError Int)
    (params : List (String × PyObject)) (t m : PyObject) (tol : Double) (n : Int)
    (ht : params.lookup "tolerance" = some t)
    (hm : params.lookup "max_iterations" = some m)
    (hct : cast_double t = .ok tol) (hcm : cast_int m = .ok n) :
    process_mesh_py_parameters cast_double cast_int params
      = .ok (.np_full { tolerance_value := tol, max_iter_value := n }) := by
  simp only [process_mesh_py_parameters, ht, hm, hct, hcm]
  rfl

/-- C10: evaluation of `process_mesh_py` on a dictionary whose only entry is
`max_iterations`: whatever the value and the casts, the last branch is taken
and `Default_named_parameters` is handed to `process_mesh`, an object that
carries no `max_iterations`; the call still returns the processed-mesh text. -/
theorem process_mesh_py_max_iterations_alone {PyObject Double CastError : Type}
    (cast_double : PyObject → Except CastError Double)
    (cast_int : PyObject → Except CastError Int) (v : PyObject) :
    process_mesh_py_parameters cast_double cast_int [("max_iterations", v)]
        = .ok (.np parameters.default_values)
      ∧ (PassedParameters.np parameters.default_values :
          PassedParameters Double).max_iterations = none
      ∧ process_mesh_py cast_double cast_int "cube" 8 [("max_iterations", v)]
        = .ok "Processed mesh 'cube' with 8 vertices" := by
  exact ⟨rfl, rfl, rfl⟩

end Binding

namespace CGALPY

open CGAL.parameters

/-- C13: `Named_parameter_verbose` casts the value to `bool`: the returned
configuration is `np` with `.verbose(true)` appended when the value is
non-zero and with `.verbose(false)` when it is zero, so any two non-zero
values give the same configuration. -/
theorem Named_parameter_verbose_casts_bool (np : MockParameters) (v w : Int) :
    (v ≠ 0 → (Named_parameter_verbose.call np v).chain = np.chain ++ ".verbose(true)")
      ∧ (v = 0 → (Named_parameter_verbose.call np v).chain = np.chain ++ ".verbose(false)")
      ∧ (v ≠ 0 → w ≠ 0 →
          Named_parameter_verbose.call np v = Named_parameter_verbose.call np w) := by
  refine ⟨?_, ?_, ?_⟩
  · intro hv
    simp only [Named_parameter_verbose, MockParameters.verbose, hv, ne_eq,
      not_false_eq_true, decide_True, if_true]
    rfl
  · intro hv
    simp only [Named_parameter_verbose, MockParameters.verbose, hv, ne_eq,
      not_true_eq_false, decide_False]
    rfl
  · intro hv hw
    simp only [Named_parameter_verbose, hv, hw, ne_eq, not_false_eq_true]

theorem Named_parameter_verbose_casts_bool_witness :
    (1 : Int) ≠ 0 ∧ (2 : Int) ≠ 0
      ∧ (Named_parameter_verbose.call default_values 1).chain
        = default_values.chain ++ ".verbose(true)"
      ∧ Named_parameter_verbose.call default_values 1
        = Named_parameter_verbose.call default_values 2 :=
  ⟨by decide, by decide,
   (Named_parameter_verbose_casts_bool default_values 1 2).1 (by decide),
   (Named_parameter_verbose_casts_bool default_values 1 2).2.2 (by decide) (by decide)⟩

end CGALPY

/-- C11 (as stated, refuted): at the `int` input `1073741824` the product
`x * 2` leaves the range of `int`; the 32-bit result is `-2147483648`, not the
input multiplied by 2. -/
theorem simple_function_overflow :
    is_int32 1073741824
      ∧ simple_function 1073741824 = -2147483648
      ∧ simple_function 1073741824 ≠ 1073741824 * 2 := by
  refine ⟨?_, ?_, ?_⟩
  · unfold is_int32
    decide
  · decide
  · decide

/-- C11 (amended): for every `int` input `x`, `simple_function` returns `x`
multiplied by 2 exactly when the double lies in the range of `int`, that is
when `-1073741824 ≤ x ≤ 1073741823`; the result is always an `int`, and the
two examples of the docstring hold. -/
theorem simple_function_double (x : Int) (hx : is_int32 x) :
    (simple_function x = x * 2 ↔ (-1073741824 ≤ x ∧ x ≤ 1073741823))
      ∧ is_int32 (simple_function x)
      ∧ simple_function 5 = 10
      ∧ simple_function (-3) = -6 := by
  unfold is_int32 at hx
  refine ⟨?_, ?_, by decide, by decide⟩
  · unfold simple_function wrap_int32
    constructor
    · intro h
      omega
    · intro h
      omega
  · unfold is_int32 simple_function wrap_int32
    omega

theorem simple_function_double_witness :
    is_int32 5 ∧ (-1073741824 : Int) ≤ 5 ∧ (5 : Int) ≤ 1073741823
      ∧ simple_function 5 = 5 * 2 :=
  ⟨by unfold is_int32; decide, by decide, by decide,
   (simple_function_double 5 (by unfold is_int32; decide)).1.2 ⟨by decide, by decide⟩⟩

namespace Binding

open SimpleGeometry

/-- C15: `process_mesh` ignores its named parameters: for any two
named-parameter objects of any types it returns the same text
`Processed mesh '<mesh_name>' with <vertex_count> vertices`; hence
`process_mesh_py` returns that text for every dictionary whose `tolerance`
and `max_iterations` values, when present, cast successfully. -/
theorem process_mesh_independent_of_parameters
    {NamedParameters1 NamedParameters2 PyObject Double CastError : Type}
    (mesh_name : String) (vertex_count : Int)
    (np1 : NamedParameters1) (np2 : NamedParameters2)
    (cast_double : PyObject → Except CastError Double)
    (cast_int : PyObject → Except CastError Int)
    (params : List (String × PyObject))
    (htol : ∀ t, params.lookup "tolerance" = some t → ∃ d, cast_double t = .ok d)
    (hmax : ∀ m, params.lookup "max_iterations" = some m → ∃ n, cast_int m = .ok n) :
    process_mesh mesh_name vertex_count np1 = process_mesh mesh_name vertex_count np2
      ∧ process_mesh mesh_name vertex_count np1
        = "Processed mesh '" ++ mesh_name ++ "' with " ++ toString vertex_count
            ++ " vertices"
      ∧ process_mesh_py cast_double cast_int mesh_name vertex_count params
        = .ok ("Processed mesh '" ++ mesh_name ++ "' with " ++ toString vertex_count
            ++ " vertices") := by
  refine ⟨rfl, rfl, ?_⟩
  unfold process_mesh_py process_mesh_py_parameters
  cases ht : params.lookup "tolerance" with
  | none => rfl
  | some t =>
    obtain ⟨d, hd⟩ := htol t ht
    cases hm : params.lookup "max_iterations" with
    | none =>
      simp only [hd]
      rfl
    | some m =>
      obtain ⟨n, hn⟩ := hmax m hm
      simp only [hd, hn]
      rfl

end Binding

namespace Binding

open SimpleGeometry

theorem process_mesh_independent_of_parameters_witness :
    (∀ t, ([("tolerance", 1), ("max_iterations", 50)] : List (String × Int)).lookup
        "tolerance" = some t → ∃ d, (Except.ok t : Except Unit Int) = .ok d)
      ∧ (∀ m, ([("tolerance", 1), ("max_iterations", 50)] : List (String × Int)).lookup
        "max_iterations" = some m → ∃ n, (Except.ok m : Except Unit Int) = .ok n)
      ∧ process_mesh_py (fun t => (Except.ok t : Except Unit Int))
          (fun m => (Except.ok m : Except Unit Int)) "cube" 8
          [("tolerance", 1), ("max_iterations", 50)]
        = .ok ("Processed mesh '" ++ "cube" ++ "' with " ++ toString (8 : Int)
            ++ " vertices") :=
  ⟨fun t _ => ⟨t, rfl⟩, fun m _ => ⟨m, rfl⟩,
   (process_mesh_independent_of_parameters "cube" 8
     parameters.default_values (parameters.tolerance (1 : Int))
     (fun t => (Except.ok t : Except Unit Int))
     (fun m => (Except.ok m : Except Unit Int))
     [("tolerance", 1), ("max_iterations", 50)]
     (fun t _ => ⟨t, rfl⟩) (fun m _ => ⟨m, rfl⟩)).2.2⟩

end Binding

namespace CGALPY

open CGAL.parameters

theorem scan_params_events_operator_calls (op : NamedParameterOp)
    (np : MockParameters) (params : MockDict) :
    (scan_params_events op np params).1.filter Event.is_operator_call
      = ((dict_at params op.m_name).map (Event.operator_call op.m_name)).toList := by
  unfold dict_at
  induction params with
  | nil => rfl
  | cons item rest ih =>
    obtain ⟨k, v⟩ := item
    by_cases h : k = op.m_name
    · subst h
      simp [scan_params_events, Event.is_operator_call, List.lookup]
    · have h2 : (op.m_name == k) = false := by
        simp only [beq_eq_false_iff_ne, ne_eq]
        exact fun e => h e.symm
      simp [scan_params_events, Event.is_operator_call, List.lookup, h, h2, ih]

theorem applicator_events_operator_calls (np : MockParameters) (params : MockDict)
    (ops : List NamedParameterOp) :
    (named_parameter_applicator_events np params ops).filter Event.is_operator_call
      = ops.filterMap (fun op =>
          (dict_at params op.m_name).map (Event.operator_call op.m_name)) := by
  induction ops generalizing np with
  | nil => rfl
  | cons op ops ih =>
    have h1 := scan_params_events_operator_calls op np params
    rcases hs : scan_params_events op np params with ⟨evs, r⟩
    rw [hs] at h1
    simp only at h1
    cases hd : dict_at params op.m_name with
    | none =>
      rw [hd] at h1
      cases r with
      | none =>
        simp [named_parameter_applicator_events, hs, List.filter_append, h1,
          Event.is_operator_call, ih, List.filterMap_cons, hd]
      | some np_new =>
        simp [named_parameter_applicator_events, hs, List.filter_append, h1,
          Event.is_operator_call, ih, List.filterMap_cons, hd]
    | some v =>
      rw [hd] at h1
      cases r with
      | none =>
        simp [named_parameter_applicator_events, hs, List.filter_append, h1,
          Event.is_operator_call, ih, List.filterMap_cons, hd]
      | some np_new =>
        simp [named_parameter_applicator_events, hs, List.filter_append, h1,
          Event.is_operator_call, ih, List.filterMap_cons, hd]

theorem operator_calls_length (params : MockDict) (ops : List NamedParameterOp) :
    (ops.filterMap (fun op =>
        (dict_at params op.m_name).map (Event.operator_call op.m_name))).length
      = ops.countP (fun op => decide (op.m_name ∈ params.map Prod.fst)) := by
  induction ops with
  | nil => rfl
  | cons op ops ih =>
    cases hd : dict_at params op.m_name with
    | none =>
      have hk := (dict_at_eq_none_iff params op.m_name).1 hd
      simp only [List.filterMap_cons, hd, Option.map_none', ih, List.countP_cons, hk,
        decide_False]
      simp
    | some v =>
      have hk : op.m_name ∈ params.map Prod.fst := by
        by_contra hn
        rw [(dict_at_eq_none_iff params op.m_name).2 hn] at hd
        exact Option.noConfusion hd
      simp only [List.filterMap_cons, hd, Option.map_some', List.length_cons, ih,
        List.countP_cons, hk, decide_True]
      simp

theorem foldl_step_eq_run_steps (np : MockParameters) (params : MockDict)
    (ops : List NamedParameterOp) :
    List.foldl (step params) np ops = run_steps np (apply_steps params ops) := by
  induction ops generalizing np with
  | nil => rfl
  | cons op ops ih =>
    cases hd : dict_at params op.m_name with
    | none =>
      simp only [List.foldl_cons, step, hd, apply_steps, List.filterMap_cons,
        Option.map_none']
      exact ih np
    | some v =>
      simp only [List.foldl_cons, step, hd, apply_steps, List.filterMap_cons,
        Option.map_some', run_steps]
      exact ih (op.call np v)

theorem apply_steps_length (params : MockDict) (ops : List NamedParameterOp) :
    (apply_steps params ops).length
      = ops.countP (fun op => decide (op.m_name ∈ params.map Prod.fst)) := by
  induction ops with
  | nil => rfl
  | cons op ops ih =>
    unfold apply_steps at ih ⊢
    cases hd : dict_at params op.m_name with
    | none =>
      have hk := (dict_at_eq_none_iff params op.m_name).1 hd
      simp only [List.filterMap_cons, hd, Option.map_none', ih, List.countP_cons, hk,
        decide_False]
      simp
    | some v =>
      have hk : op.m_name ∈ params.map Prod.fst := by
        by_contra hn
        rw [(dict_at_eq_none_iff params op.m_name).2 hn] at hd
        exact Option.noConfusion hd
      simp only [List.filterMap_cons, hd, Option.map_some', List.length_cons, ih,
        List.countP_cons, hk, decide_True]
      simp

theorem apply_steps_events (params : MockDict) (ops : List NamedParameterOp) :
    ops.filterMap (fun op =>
        (dict_at params op.m_name).map (Event.operator_call op.m_name))
      = (apply_steps params ops).map (fun s => Event.operator_call s.1.m_name s.2) := by
  induction ops with
  | nil => rfl
  | cons op ops ih =>
    unfold apply_steps at ih ⊢
    cases hd : dict_at params op.m_name with
    | none => simp only [List.filterMap_cons, hd, Option.map_none', ih]
    | some v =>
      simp only [List.filterMap_cons, hd, Option.map_some', ih, List.map_cons]

theorem apply_steps_mem (params : MockDict) (ops : List NamedParameterOp)
    (s : NamedParameterOp × Int) (hs : s ∈ apply_steps params ops) :
    s.1 ∈ ops ∧ dict_at params s.1.m_name = some s.2 := by
  unfold apply_steps at hs
  rw [List.mem_filterMap] at hs
  obtain ⟨op, hop, hv⟩ := hs
  cases hd : dict_at params op.m_name with
  | none =>
    rw [hd] at hv
    exact Option.noConfusion hv
  | some v =>
    rw [hd] at hv
    simp only [Option.map_some', Option.some.injEq] at hv
    subst hv
    exact ⟨hop, hd⟩

/-- C12: operator names may repeat in the operator list: every operator of
the list whose `m_name` is a dictionary key is applied once, in list order, so
the number of apply steps is the number of such operators counted with
multiplicity.  The wrapper receives the configuration obtained by applying
the steps of `apply_steps` one after the other; each step is an operator of
the list with the value of its key; the run calls the operators exactly at
these steps and hands that configuration to the wrapper;
`[verbose, verbose]` on `{verbose: 1}` gives the chain
`default_values().verbose(true).verbose(true)`. -/
theorem named_parameter_applicator_repeated_operators {ρ : Type}
    (wrapper : MockParameters → ρ) (np : MockParameters)
    (params : MockDict) (ops : List NamedParameterOp) :
    named_parameter_applicator wrapper np params ops
        = wrapper (run_steps np (apply_steps params ops))
      ∧ (apply_steps params ops).length
        = ops.countP (fun op => decide (op.m_name ∈ params.map Prod.fst))
      ∧ (apply_steps params ops).map Prod.fst
        = ops.filter (fun op => decide (op.m_name ∈ params.map Prod.fst))
      ∧ (∀ s ∈ apply_steps params ops, dict_at params s.1.m_name = some s.2)
      ∧ (named_parameter_applicator_events np params ops).filter Event.is_operator_call
        = (apply_steps params ops).map (fun s => Event.operator_call s.1.m_name s.2)
      ∧ (named_parameter_applicator_events np params ops).filter Event.is_wrapper_call
        = [Event.wrapper_call (run_steps np (apply_steps params ops))]
      ∧ (named_parameter_applicator_events np params ops).countP Event.is_operator_call
        = ops.countP (fun op => decide (op.m_name ∈ params.map Prod.fst))
      ∧ (named_parameter_applicator_events np params ops).filter Event.is_operator_call
        = ops.filterMap (fun op =>
            (dict_at params op.m_name).map (Event.operator_call op.m_name))
      ∧ (named_parameter_applicator id default_values [("verbose", 1)]
          [Named_parameter_verbose, Named_parameter_verbose]).chain
        = "default_values().verbose(true).verbose(true)"
      ∧ (named_parameter_applicator_events default_values [("verbose", 1)]
          [Named_parameter_verbose, Named_parameter_verbose]).filter
            Event.is_wrapper_call
        = [Event.wrapper_call { chain := "default_values().verbose(true).verbose(true)" }] := by
  refine ⟨?_, apply_steps_length params ops, ?_,
    fun s hs => (apply_steps_mem params ops s hs).2, ?_, ?_, ?_,
    applicator_events_operator_calls np params ops, by decide, by decide⟩
  · rw [applicator_eq_wrapper_foldl, foldl_step_eq_run_steps]
  · induction ops with
    | nil => rfl
    | cons op ops ih =>
      unfold apply_steps at ih ⊢
      cases hd : dict_at params op.m_name with
      | none =>
        have hk := (dict_at_eq_none_iff params op.m_name).1 hd
        simp only [List.filterMap_cons, hd, Option.map_none', ih, List.filter_cons, hk,
          decide_False]
        simp
      | some v =>
        have hk : op.m_name ∈ params.map Prod.fst := by
          by_contra hn
          rw [(dict_at_eq_none_iff params op.m_name).2 hn] at hd
          exact Option.noConfusion hd
        simp only [List.filterMap_cons, hd, Option.map_some', List.map_cons, ih,
          List.filter_cons, hk, decide_True]
        simp
  · rw [applicator_events_operator_calls, apply_steps_events]
  · rw [applicator_events_wrapper_calls, applicator_eq_wrapper_foldl,
      foldl_step_eq_run_steps]
    rfl
  · rw [List.countP_eq_length_filter, applicator_events_operator_calls,
      operator_calls_length]

end CGALPY

namespace CGALPY

open CGAL.parameters

theorem mock_operator_call (op : NamedParameterOpRef)
    (hop : op = Named_parameter_verbose_ref ∨ op = Named_parameter_vertex_point_map_ref
      ∨ op = Named_parameter_geom_traits_ref)
    (np : MockParameters) (v : Int) :
    (op.call np v).1 = np ∧ ∃ seg, (op.call np v).2.chain = np.chain ++ seg := by
  rcases hop with rfl | rfl | rfl
  · exact ⟨rfl, _, rfl⟩
  · exact ⟨rfl, _, rfl⟩
  · exact ⟨rfl, _, rfl⟩

theorem scan_params_ref_snd (op : NamedParameterOpRef) (np : MockParameters)
    (params : MockDict) :
    (scan_params_ref op np params).map Prod.snd = scan_params op.pure np params := by
  induction params with
  | nil => rfl
  | cons item rest ih =>
    by_cases h : item.1 = op.m_name
    · simp [scan_params_ref, scan_params, NamedParameterOpRef.pure, h]
    · simpa [scan_params_ref, scan_params, NamedParameterOpRef.pure, h] using ih

theorem scan_params_ref_some (op : NamedParameterOpRef) (np : MockParameters)
    (params : MockDict) (r : MockParameters × MockParameters)
    (hr : scan_params_ref op np params = some r) : ∃ v, r = op.call np v := by
  induction params with
  | nil => simp [scan_params_ref] at hr
  | cons item rest ih =>
    by_cases h : item.1 = op.m_name
    · simp only [scan_params_ref, h, if_true, Option.some.injEq] at hr
      exact ⟨item.2, hr.symm⟩
    · simp only [scan_params_ref, h, if_false] at hr
      exact ih hr

theorem applicator_ref_result {ρ : Type} (wrapper : MockParameters → MockParameters × ρ)
    (np : MockParameters) (params : MockDict) (ops : List NamedParameterOpRef) :
    (named_parameter_applicator_ref wrapper np params ops).result
      = (wrapper (named_parameter_applicator id np params
          (ops.map NamedParameterOpRef.pure))).2 := by
  induction ops generalizing np with
  | nil => rfl
  | cons op ops ih =>
    have h2 := scan_params_ref_snd op np params
    cases hs : scan_params_ref op np params with
    | none =>
      rw [hs] at h2
      simp only [named_parameter_applicator_ref, hs, List.map_cons,
        named_parameter_applicator, ← h2, Option.map_none']
      exact ih np
    | some r =>
      rw [hs] at h2
      simp only [named_parameter_applicator_ref, hs, List.map_cons,
        named_parameter_applicator, ← h2, Option.map_some']
      exact ih r.2

theorem applicator_ref_params {ρ : Type} (wrapper : MockParameters → MockParameters × ρ)
    (np : MockParameters) (params : MockDict) (ops : List NamedParameterOpRef) :
    (named_parameter_applicator_ref wrapper np params ops).params = params := by
  induction ops generalizing np with
  | nil => rfl
  | cons op ops ih =>
    cases hs : scan_params_ref op np params with
    | none =>
      simp only [named_parameter_applicator_ref, hs]
      exact ih np
    | some r =>
      simp only [named_parameter_applicator_ref, hs]
      exact ih r.2

theorem applicator_ref_np {ρ : Type} (wrapper : MockParameters → MockParameters × ρ)
    (np : MockParameters) (params : MockDict) (ops : List NamedParameterOpRef)
    (hops : ∀ op ∈ ops, op = Named_parameter_verbose_ref
      ∨ op = Named_parameter_vertex_point_map_ref ∨ op = Named_parameter_geom_traits_ref)
    (hw : ∀ c, (wrapper c).1 = c) :
    (named_parameter_applicator_ref wrapper np params ops).np = np := by
  induction ops generalizing np with
  | nil => exact hw np
  | cons op ops ih =>
    have hop := hops op (List.mem_cons_self op ops)
    have hrest : ∀ o ∈ ops, o = Named_parameter_verbose_ref
        ∨ o = Named_parameter_vertex_point_map_ref ∨ o = Named_parameter_geom_traits_ref :=
      fun o ho => hops o (List.mem_cons_of_mem op ho)
    cases hs : scan_params_ref op np params with
    | none =>
      simp only [named_parameter_applicator_ref, hs]
      exact ih np hrest
    | some r =>
      obtain ⟨v, hv⟩ := scan_params_ref_some op np params r hs
      simp only [named_parameter_applicator_ref, hs]
      rw [hv]
      exact (mock_operator_call op hop np v).1

theorem applicator_chain_grows (np : MockParameters) (params : MockDict)
    (ops : List NamedParameterOpRef)
    (hops : ∀ op ∈ ops, op = Named_parameter_verbose_ref
      ∨ op = Named_parameter_vertex_point_map_ref ∨ op = Named_parameter_geom_traits_ref) :
    ∃ s, (named_parameter_applicator id np params
        (ops.map NamedParameterOpRef.pure)).chain = np.chain ++ s := by
  induction ops generalizing np with
  | nil => exact ⟨"", by simp [named_parameter_applicator]⟩
  | cons op ops ih =>
    have hop := hops op (List.mem_cons_self op ops)
    have hrest : ∀ o ∈ ops, o = Named_parameter_verbose_ref
        ∨ o = Named_parameter_vertex_point_map_ref ∨ o = Named_parameter_geom_traits_ref :=
      fun o ho => hops o (List.mem_cons_of_mem op ho)
    have h2 := scan_params_ref_snd op np params
    cases hs : scan_params_ref op np params with
    | none =>
      rw [hs] at h2
      simp only [List.map_cons, named_parameter_applicator, ← h2, Option.map_none']
      exact ih np hrest
    | some r =>
      obtain ⟨v, hv⟩ := scan_params_ref_some op np params r hs
      obtain ⟨seg, hseg⟩ := (mock_operator_call op hop np v).2
      obtain ⟨s, hs2⟩ := ih r.2 hrest
      rw [hs] at h2
      refine ⟨seg ++ s, ?_⟩
      simp only [List.map_cons, named_parameter_applicator, ← h2, Option.map_some']
      rw [hs2, hv, hseg, String.append_assoc]

/-- C14: the configuration only grows and the inputs are not mutated.  Each
of the three methods leaves its receiver as it was and returns the chain of
the receiver followed by one segment (the same value as the pure method); for
an operator list made of the three mock operators, `np.chain` is an initial
part of the final chain, the value returned is the one of the pure
applicator, and after the call the `np` and the dictionary of the caller are
the ones passed in, for `MockWrapper` and for every wrapper that does not
assign its argument. -/
theorem configuration_only_grows {ρ : Type}
    (wrapper : MockParameters → MockParameters × ρ) (np : MockParameters)
    (params : MockDict) (ops : List NamedParameterOpRef) (b : Bool) (n : Int)
    (hops : ∀ op ∈ ops, op = Named_parameter_verbose_ref
      ∨ op = Named_parameter_vertex_point_map_ref ∨ op = Named_parameter_geom_traits_ref)
    (hw : ∀ c, (wrapper c).1 = c) :
    (np.verbose_ref b
        = (np, { chain := np.chain ++ (".verbose(" ++ (if b then "true" else "false") ++ ")") })
      ∧ np.vertex_point_map_ref n
        = (np, { chain := np.chain ++ (".vertex_point_map(vpm_" ++ toString n ++ ")") })
      ∧ np.geom_traits_ref n
        = (np, { chain := np.chain ++ (".geom_traits(kernel_" ++ toString n ++ ")") }))
      ∧ ((np.verbose_ref b).2 = np.verbose b
        ∧ (np.vertex_point_map_ref n).2 = np.vertex_point_map n
        ∧ (np.geom_traits_ref n).2 = np.geom_traits n)
      ∧ (∃ s, (named_parameter_applicator id np params
          (ops.map NamedParameterOpRef.pure)).chain = np.chain ++ s)
      ∧ (named_parameter_applicator_ref wrapper np params ops).result
        = (wrapper (named_parameter_applicator id np params
            (ops.map NamedParameterOpRef.pure))).2
      ∧ (named_parameter_applicator_ref wrapper np params ops).np = np
      ∧ (named_parameter_applicator_ref wrapper np params ops).params = params
      ∧ (∀ function_name : String,
          (named_parameter_applicator_ref (MockWrapper function_name) np params ops).np = np
            ∧ (named_parameter_applicator_ref (MockWrapper function_name) np params
                ops).params = params) :=
  ⟨⟨rfl, rfl, rfl⟩, ⟨rfl, rfl, rfl⟩, applicator_chain_grows np params ops hops,
   applicator_ref_result wrapper np params ops,
   applicator_ref_np wrapper np params ops hops hw,
   applicator_ref_params wrapper np params ops,
   fun function_name =>
     ⟨applicator_ref_np (MockWrapper function_name) np params ops hops (fun _ => rfl),
      applicator_ref_params (MockWrapper function_name) np params ops⟩⟩

theorem configuration_only_grows_witness :
    (∀ op ∈ [Named_parameter_vertex_point_map_ref, Named_parameter_geom_traits_ref,
        Named_parameter_verbose_ref],
        op = Named_parameter_verbose_ref ∨ op = Named_parameter_vertex_point_map_ref
          ∨ op = Named_parameter_geom_traits_ref)
      ∧ (∀ c, (MockWrapper "isotropic_remeshing" c).1 = c)
      ∧ (named_parameter_applicator_ref (MockWrapper "isotropic_remeshing") default_values
          [("geom_traits", 456), ("verbose", 1), ("vertex_point_map", 123)]
          [Named_parameter_vertex_point_map_ref, Named_parameter_geom_traits_ref,
            Named_parameter_verbose_ref]).np = default_values
      ∧ (named_parameter_applicator_ref (MockWrapper "isotropic_remeshing") default_values
          [("geom_traits", 456), ("verbose", 1), ("vertex_point_map", 123)]
          [Named_parameter_vertex_point_map_ref, Named_parameter_geom_traits_ref,
            Named_parameter_verbose_ref]).params
        = [("geom_traits", 456), ("verbose", 1), ("vertex_point_map", 123)] :=
  ⟨by
     intro op hop
     simp only [List.mem_cons, List.mem_singleton, List.not_mem_nil, or_false] at hop
     rcases hop with rfl | rfl | rfl <;> simp,
   fun _ => rfl,
   (configuration_only_grows (MockWrapper "isotropic_remeshing") default_values
     [("geom_traits", 456), ("verbose", 1), ("vertex_point_map", 123)]
     [Named_parameter_vertex_point_map_ref, Named_parameter_geom_traits_ref,
       Named_parameter_verbose_ref] true 123
     (by
       intro op hop
       simp only [List.mem_cons, List.mem_singleton, List.not_mem_nil, or_false] at hop
       rcases hop with rfl | rfl | rfl <;> simp)
     (fun _ => rfl)).2.2.2.2.1,
   (configuration_only_grows (MockWrapper "isotropic_remeshing") default_values
     [("geom_traits", 456), ("verbose", 1), ("vertex_point_map", 123)]
     [Named_parameter_vertex_point_map_ref, Named_parameter_geom_traits_ref,
       Named_parameter_verbose_ref] true 123
     (by
       intro op hop
       simp only [List.mem_cons, List.mem_singleton, List.not_mem_nil, or_false] at hop
       rcases hop with rfl | rfl | rfl <;> simp)
     (fun _ => rfl)).2.2.2.2.2.1⟩

end CGALPY
